import Mathlib

/-!
Shallow embedding of the reconciliation core of the kafka-connect-k8s-operator
charm: `ConnectCharm.reconcile` and `ConnectCharm._restart_callback`
(src/charm.py), `ConnectUpgrade.pre_upgrade_check` (src/events/upgrade.py), and
`Workload.read` / `Workload.active` / `Workload.set_environment` /
`Workload.map_env` (src/workload.py).

Side effects on external collaborators (event emission, plugin loading, status
setting, process restart) are modelled as an emitted list of `CharmAction`s, in the
order the Python code performs them.  State the reconciler reads back
(`should_restart`, the unit TLS certificate, the worker properties file) is an
explicit `ConnState` record threaded through the functions.
-/

/-! ### String helpers mirroring Python `str.split` semantics -/

/-- Accumulator variant of splitting a character list at `'\n'`.
`acc` holds the (reversed) characters of the current field. -/
def splitLinesAux (acc : List Char) : List Char → List String
  | [] => [String.mk acc.reverse]
  | c :: rest =>
      if c = '\n' then String.mk acc.reverse :: splitLinesAux [] rest
      else splitLinesAux (c :: acc) rest

/-- Python `content.split("\n")`: splitting on every newline, keeping empty
fields (so `"a\n".split("\n") == ["a", ""]` and `"".split("\n") == [""]`). -/
def splitLines (s : String) : List String :=
  splitLinesAux [] s.data

/-- Python `"\n".join(lines)`. -/
def joinLines : List String → String
  | [] => ""
  | [x] => x
  | x :: xs => x ++ "\n" ++ joinLines xs

/-- Characters before / after the first `'='`, mirroring
`var.split("=", maxsplit=1)`: if no `'='` occurs the second component is
empty, exactly as `"".join(var.split("=", maxsplit=1)[1:])` gives `""`. -/
def splitEqChars : List Char → List Char × List Char
  | [] => ([], [])
  | c :: rest =>
      if c = '=' then ([], rest)
      else
        let p := splitEqChars rest
        (c :: p.1, p.2)

/-- Key part of a `KEY=VALUE` entry, Python `var.split("=", maxsplit=1)[0]`. -/
def envKey (s : String) : String :=
  String.mk (splitEqChars s.data).1

/-- Value part of a `KEY=VALUE` entry,
Python `"".join(var.split("=", maxsplit=1)[1:])`. -/
def envValue (s : String) : String :=
  String.mk (splitEqChars s.data).2

/-! ### Data model -/

/-- Outcome of `self.model.resources.fetch(PLUGIN_RESOURCE_KEY)` followed by
`self.connect_manager.load_plugin(...)` inside the `try` block of
`reconcile`: success, or one of the three exception classes the code
catches (`RuntimeError` for an undeclared resource, `NameError` /
`ModelError` for a missing or non-downloadable one). -/
inductive FetchResult
  | ok
  | runtimeError
  | nameError
  | modelError
deriving DecidableEq, Repr

/-- Observable side effects of the charm code, in program order. -/
inductive CharmAction
  | initPluginPath
  | loadPlugin
  | logResourceError
  | logResourceDebug
  | updatePlugins
  | updateClientsData
  | emitCertExpiring
  | enableAuth
  | tlsConfigure
  | configConfigure
  | setStatus
  | acquireLock
  | restartWorker
  | healthCheckPoll
deriving DecidableEq, Repr

/-- External inputs read (but never written) by one `reconcile` invocation. -/
structure ReconcileEnv where
  pluginPathInitiated : Bool
  fetch : FetchResult
  tlsEnabled : Bool
  sansChanged : Bool
  desired : List String
  ready : Bool
deriving DecidableEq, Repr

/-- Unit-local state `reconcile` and `_restart_callback` read and write:
the peer-databag `should_restart` flag, the unit's cached certificate, and
the raw content of the worker properties file (`none` when absent). -/
structure ConnState where
  shouldRestart : Bool
  cert : String
  workerPropsFile : Option String
deriving DecidableEq, Repr

/-! ### Workload file primitives (src/workload.py) -/

/-- `Workload.read`: `[]` when the file does not exist, otherwise the raw
content split on newlines. -/
def Workload.read (file : Option String) : List String :=
  match file with
  | none => []
  | some c => splitLines c

/-- Modelled from the spec: `ConfigManager.configure` (managers/config.py is
not part of the analysed sources) renders all configuration sources into
`key=value` lines and writes them as the worker properties file. -/
def ConfigManager.configure (desired : List String) : Option String :=
  some (joinLines desired)

/-! ### The reconciliation engine (ConnectCharm.reconcile, src/charm.py) -/

/-- Actions of the plugin-sync and client-propagation phase (steps before the
SAN check): optional `init_plugin_path`, the `try`-guarded fetch/load with
its two `except` arms, then `update_plugins` and `update_clients_data`. -/
def pluginPhaseActions (env : ReconcileEnv) : List CharmAction :=
  (if env.pluginPathInitiated then [] else [CharmAction.initPluginPath])
    ++ (match env.fetch with
        | FetchResult.ok => [CharmAction.loadPlugin]
        | FetchResult.runtimeError => [CharmAction.logResourceError]
        | FetchResult.nameError => [CharmAction.logResourceDebug]
        | FetchResult.modelError => [CharmAction.logResourceDebug])
    ++ [CharmAction.updatePlugins, CharmAction.updateClientsData]

/-- The drift set `set(self.config_manager.properties) ^ current_config`,
with `current_config = set(self.workload.read(worker_properties))`. -/
def configDrift (env : ReconcileEnv) (st : ConnState) : Finset String :=
  symmDiff env.desired.toFinset (Workload.read st.workerPropsFile).toFinset

/-- State after the drift-detection step (`if diff: should_restart = True`). -/
def driftState (env : ReconcileEnv) (st : ConnState) : ConnState :=
  if configDrift env st = ∅ then st else { st with shouldRestart := true }

/-- `ConnectCharm.reconcile`, src/charm.py lines 171-222. -/
def reconcile (env : ReconcileEnv) (st : ConnState) : ConnState × List CharmAction :=
  let pre := pluginPhaseActions env
  if env.tlsEnabled && env.sansChanged then
    ({ st with cert := "" }, pre ++ [CharmAction.emitCertExpiring])
  else
    let st1 := driftState env st
    if !st1.shouldRestart then (st1, pre)
    else if !env.ready then (st1, pre ++ [CharmAction.setStatus])
    else
      ({ st1 with workerPropsFile := ConfigManager.configure env.desired },
        pre ++ [CharmAction.enableAuth, CharmAction.tlsConfigure, CharmAction.configConfigure,
          CharmAction.acquireLock])

/-! ### The rolling restart callback (ConnectCharm._restart_callback) -/

/-- The bounded health-check loop `for _ in range(4): if health_check(): ...`:
given the attempt outcomes `health` (attempt index → result) and a budget,
returns whether a check succeeded and how many checks were performed. -/
def healthPoll (health : Nat → Bool) : Nat → Nat → Bool × Nat
  | 0, _ => (false, 0)
  | Nat.succ n, i =>
      if health i then (true, 1)
      else
        let r := healthPoll health n (i + 1)
        (r.1, r.2 + 1)

/-- `ConnectCharm._restart_callback`, src/charm.py lines 158-169: decline when
the cluster is not ready or no restart is pending; otherwise restart the
worker and poll the health check up to 4 times, clearing `should_restart`
on the first success. -/
def restartCallback (ready : Bool) (health : Nat → Bool) (st : ConnState) :
    ConnState × List CharmAction :=
  if !ready || !st.shouldRestart then (st, [])
  else
    let r := healthPoll health 4 0
    (if r.1 then { st with shouldRestart := false } else st,
      CharmAction.restartWorker :: List.replicate r.2 CharmAction.healthCheckPoll)

/-! ### Upgrade pre-check (ConnectUpgrade.pre_upgrade_check, src/events/upgrade.py) -/

/-- Result of `pre_upgrade_check`: either the raised `ClusterNotReadyError`
(with its `message` and `cause`), or normal return carrying the partition
value passed to `_set_rolling_update_partition` (`none` when the upgrade
stack is not idle and no patch is issued). -/
inductive PreCheckResult
  | clusterNotReady (message cause : String)
  | ok (partitionSet : Option Nat)
deriving DecidableEq, Repr

/-- `ConnectUpgrade.pre_upgrade_check`, src/events/upgrade.py lines 94-101.
`healthOk` is `connect_manager.health_check()`, `idle` is
`not bool(self.upgrade_stack)`, `numUnits` is `len(self.charm.context.units)`. -/
def ConnectUpgrade.pre_upgrade_check (healthOk idle : Bool) (numUnits : Nat) : PreCheckResult :=
  if !healthOk then
    PreCheckResult.clusterNotReady "Pre-upgrade check failed and cannot safely upgrade"
      "Cluster is not healthy"
  else if idle then PreCheckResult.ok (some (numUnits - 1))
  else PreCheckResult.ok none

/-! ### Workload.active (src/workload.py lines 108-122) -/

/-- `wait_fixed(1)` of the tenacity decorator on `Workload.active`. -/
def active_retry_wait_seconds : Nat := 1

/-- `stop_after_attempt(5)` of the tenacity decorator on `Workload.active`. -/
def active_retry_max_attempts : Nat := 5

/-- The tenacity retry loop with `retry_if_result(lambda r: r is False)` and
`retry_error_callback=lambda _: False`: run `body` on successive attempts,
stop at the first `true`; when the budget is exhausted return `false`
instead of raising `RetryError`. -/
def retryFalseLoop (body : Nat → Bool) : Nat → Nat → Bool
  | 0, _ => false
  | Nat.succ n, i => if body i then true else retryFalseLoop body n (i + 1)

/-- One attempt of `Workload.active`: `False` when the workload is not
installed or the service is not registered, else whether it is running. -/
def Workload.activeBody (installed serviceRegistered running : Bool) : Bool :=
  if !installed then false
  else if !serviceRegistered then false
  else running

/-- `Workload.active` as seen by callers: the retried attempt outcomes are
abstracted as `body`. -/
def Workload.active (body : Nat → Bool) : Bool :=
  retryFalseLoop body active_retry_max_attempts 0

/-! ### Workload.set_environment / Workload.map_env (src/workload.py) -/

/-- Python `dict` assignment `d[k] = v`: replace the value in place when the
key exists, else append the binding. -/
def dictInsert (d : List (String × String)) (k v : String) : List (String × String) :=
  if d.any (fun p => p.1 == k) then d.map (fun p => if p.1 == k then (k, v) else p)
  else d ++ [(k, v)]

/-- Lookup in the association-list rendering of a Python dict. -/
def dictLookup (d : List (String × String)) (k : String) : Option String :=
  (d.find? (fun p => p.1 == k)).map Prod.snd

/-- One iteration of the `map_env` loop: skip entries with an empty key
(`if key:` in the source), otherwise bind the parsed key to the parsed
value. -/
def mapEnvStep (d : List (String × String)) (var : String) : List (String × String) :=
  if envKey var == "" then d else dictInsert d (envKey var) (envValue var)

/-- `Workload.map_env`, src/workload.py lines 224-234: parse `KEY=VALUE`
entries into a dict, dropping entries with an empty key and keeping empty
values; later entries override earlier ones with the same key. -/
def Workload.map_env (env : List String) : List (String × String) :=
  env.foldl mapEnvStep []

/-- Python `a | b` on dicts: `b`'s bindings override `a`'s. -/
def dictMerge (a b : List (String × String)) : List (String × String) :=
  b.foldl (fun d p => dictInsert d p.1 p.2) a

/-- `Workload.set_environment`, src/workload.py lines 170-177: the dict whose
rendered `KEY=VALUE` lines are written back to the environment file, from
the current file content (`none` when absent) and the new entries. -/
def Workload.set_environment (envFile : Option String) (env_vars : List String) :
    List (String × String) :=
  dictMerge (Workload.map_env (Workload.read envFile)) (Workload.map_env env_vars)

/-! ### Helper lemmas -/

lemma driftState_empty {env : ReconcileEnv} {st : ConnState}
    (h : configDrift env st = ∅) : driftState env st = st := by
  simp [driftState, h]

lemma driftState_workerPropsFile (env : ReconcileEnv) (st : ConnState) :
    (driftState env st).workerPropsFile = st.workerPropsFile := by
  unfold driftState; split <;> rfl

lemma driftState_cert (env : ReconcileEnv) (st : ConnState) :
    (driftState env st).cert = st.cert := by
  unfold driftState; split <;> rfl

lemma driftState_shouldRestart (env : ReconcileEnv) (st : ConnState) :
    (driftState env st).shouldRestart
      = (st.shouldRestart || decide (configDrift env st ≠ ∅)) := by
  unfold driftState; split <;> simp_all

lemma pluginPhaseActions_mem (env : ReconcileEnv) :
    CharmAction.updatePlugins ∈ pluginPhaseActions env ∧
    CharmAction.updateClientsData ∈ pluginPhaseActions env ∧
    (CharmAction.loadPlugin ∈ pluginPhaseActions env ↔ env.fetch = FetchResult.ok) ∧
    (CharmAction.logResourceError ∈ pluginPhaseActions env
      ↔ env.fetch = FetchResult.runtimeError) ∧
    (CharmAction.logResourceDebug ∈ pluginPhaseActions env
      ↔ env.fetch = FetchResult.nameError ∨ env.fetch = FetchResult.modelError) ∧
    CharmAction.emitCertExpiring ∉ pluginPhaseActions env ∧
    CharmAction.enableAuth ∉ pluginPhaseActions env ∧
    CharmAction.tlsConfigure ∉ pluginPhaseActions env ∧
    CharmAction.configConfigure ∉ pluginPhaseActions env ∧
    CharmAction.setStatus ∉ pluginPhaseActions env ∧
    CharmAction.acquireLock ∉ pluginPhaseActions env := by
  obtain ⟨pi, f, te, sc, d, r⟩ := env
  cases pi <;> cases f <;> simp [pluginPhaseActions]

lemma reconcile_san_eq (env : ReconcileEnv) (st : ConnState)
    (h : (env.tlsEnabled && env.sansChanged) = true) :
    reconcile env st
      = ({ st with cert := "" }, pluginPhaseActions env ++ [CharmAction.emitCertExpiring]) := by
  simp [reconcile, h]

lemma reconcile_noop_eq (env : ReconcileEnv) (st : ConnState)
    (h : (env.tlsEnabled && env.sansChanged) = false)
    (h2 : (driftState env st).shouldRestart = false) :
    reconcile env st = (driftState env st, pluginPhaseActions env) := by
  simp [reconcile, h, h2]

lemma reconcile_wait_eq (env : ReconcileEnv) (st : ConnState)
    (h : (env.tlsEnabled && env.sansChanged) = false)
    (h2 : (driftState env st).shouldRestart = true) (h3 : env.ready = false) :
    reconcile env st
      = (driftState env st, pluginPhaseActions env ++ [CharmAction.setStatus]) := by
  simp [reconcile, h, h2, h3]

lemma reconcile_apply_eq (env : ReconcileEnv) (st : ConnState)
    (h : (env.tlsEnabled && env.sansChanged) = false)
    (h2 : (driftState env st).shouldRestart = true) (h3 : env.ready = true) :
    reconcile env st
      = ({ driftState env st with workerPropsFile := ConfigManager.configure env.desired },
         pluginPhaseActions env
           ++ [CharmAction.enableAuth, CharmAction.tlsConfigure, CharmAction.configConfigure,
               CharmAction.acquireLock]) := by
  simp [reconcile, h, h2, h3]

lemma bool_eq_false_of_ne_true {b : Bool} (h : ¬ b = true) : b = false := by
  cases b <;> simp_all

lemma reconcile_actions_shape (env : ReconcileEnv) (st : ConnState) :
    ∃ tail, (reconcile env st).2 = pluginPhaseActions env ++ tail ∧
      (tail = [] ∨ tail = [CharmAction.emitCertExpiring] ∨ tail = [CharmAction.setStatus] ∨
        tail = [CharmAction.enableAuth, CharmAction.tlsConfigure, CharmAction.configConfigure,
          CharmAction.acquireLock]) := by
  by_cases hb : (env.tlsEnabled && env.sansChanged) = true
  · exact ⟨_, by rw [reconcile_san_eq env st hb], by tauto⟩
  · have hb' := bool_eq_false_of_ne_true hb
    by_cases hr : (driftState env st).shouldRestart = true
    · by_cases hready : env.ready = true
      · exact ⟨_, by rw [reconcile_apply_eq env st hb' hr hready], by tauto⟩
      · exact ⟨_,
          by rw [reconcile_wait_eq env st hb' hr (bool_eq_false_of_ne_true hready)], by tauto⟩
    · refine ⟨[], ?_, by tauto⟩
      rw [reconcile_noop_eq env st hb' (bool_eq_false_of_ne_true hr)]
      simp

lemma reconcile_shouldRestart_eq (env : ReconcileEnv) (st : ConnState)
    (h : (env.tlsEnabled && env.sansChanged) = false) :
    (reconcile env st).1.shouldRestart = (driftState env st).shouldRestart := by
  by_cases hr : (driftState env st).shouldRestart = true
  · by_cases hready : env.ready = true
    · rw [reconcile_apply_eq env st h hr hready]
    · rw [reconcile_wait_eq env st h hr (bool_eq_false_of_ne_true hready)]
  · rw [reconcile_noop_eq env st h (bool_eq_false_of_ne_true hr)]

/-! ### Claim theorems -/

/-- Claim C1: with TLS enabled cluster-wide and a SAN mismatch detected,
`reconcile` emits exactly one certificate-renewal request as its final
action, clears the cached certificate, and performs neither drift-induced
state change nor auth/TLS/config application nor a restart/lock request
nor a status update in the same invocation. -/
theorem reconcile_san_short_circuit (env : ReconcileEnv) (st : ConnState)
    (h1 : env.tlsEnabled = true) (h2 : env.sansChanged = true) :
    (reconcile env st).1.cert = "" ∧
    (reconcile env st).1.shouldRestart = st.shouldRestart ∧
    (reconcile env st).1.workerPropsFile = st.workerPropsFile ∧
    (reconcile env st).2.count CharmAction.emitCertExpiring = 1 ∧
    (reconcile env st).2.getLast? = some CharmAction.emitCertExpiring ∧
    CharmAction.enableAuth ∉ (reconcile env st).2 ∧
    CharmAction.tlsConfigure ∉ (reconcile env st).2 ∧
    CharmAction.configConfigure ∉ (reconcile env st).2 ∧
    CharmAction.acquireLock ∉ (reconcile env st).2 ∧
    CharmAction.setStatus ∉ (reconcile env st).2 := by
  have hb : (env.tlsEnabled && env.sansChanged) = true := by rw [h1, h2]; rfl
  rw [reconcile_san_eq env st hb]
  obtain ⟨-, -, -, -, -, hce, hea, htc, hcc, hss, hal⟩ := pluginPhaseActions_mem env
  refine ⟨rfl, rfl, rfl, ?_, ?_, ?_, ?_, ?_, ?_, ?_⟩
  · simp [List.count_append, List.count_eq_zero_of_not_mem hce]
  · exact List.getLast?_concat _
  · simp only [List.mem_append]
    rintro (h | h)
    · exact hea h
    · simp at h
  · simp only [List.mem_append]
    rintro (h | h)
    · exact htc h
    · simp at h
  · simp only [List.mem_append]
    rintro (h | h)
    · exact hcc h
    · simp at h
  · simp only [List.mem_append]
    rintro (h | h)
    · exact hal h
    · simp at h
  · simp only [List.mem_append]
    rintro (h | h)
    · exact hss h
    · simp at h

theorem reconcile_san_short_circuit_witness :
    (reconcile
        { pluginPathInitiated := true, fetch := FetchResult.ok, tlsEnabled := true,
          sansChanged := true, desired := ["a=1"], ready := true }
        { shouldRestart := false, cert := "OLD", workerPropsFile := some "a=1" }).1.cert = "" ∧
    (reconcile
        { pluginPathInitiated := true, fetch := FetchResult.ok, tlsEnabled := true,
          sansChanged := true, desired := ["a=1"], ready := true }
        { shouldRestart := false, cert := "OLD", workerPropsFile := some "a=1" }).1.shouldRestart
      = false ∧
    (reconcile
        { pluginPathInitiated := true, fetch := FetchResult.ok, tlsEnabled := true,
          sansChanged := true, desired := ["a=1"], ready := true }
        { shouldRestart := false, cert := "OLD", workerPropsFile := some "a=1" }).1.workerPropsFile
      = some "a=1" ∧
    (reconcile
        { pluginPathInitiated := true, fetch := FetchResult.ok, tlsEnabled := true,
          sansChanged := true, desired := ["a=1"], ready := true }
        { shouldRestart := false, cert := "OLD", workerPropsFile := some "a=1" }).2.count
        CharmAction.emitCertExpiring = 1 ∧
    CharmAction.acquireLock ∉
      (reconcile
        { pluginPathInitiated := true, fetch := FetchResult.ok, tlsEnabled := true,
          sansChanged := true, desired := ["a=1"], ready := true }
        { shouldRestart := false, cert := "OLD", workerPropsFile := some "a=1" }).2 := by
  have h := reconcile_san_short_circuit
    { pluginPathInitiated := true, fetch := FetchResult.ok, tlsEnabled := true,
      sansChanged := true, desired := ["a=1"], ready := true }
    { shouldRestart := false, cert := "OLD", workerPropsFile := some "a=1" } rfl rfl
  exact ⟨h.1, h.2.1, h.2.2.1, h.2.2.2.1, h.2.2.2.2.2.2.2.2.1⟩


/-- Claim C2: outside the SAN short-circuit, `reconcile` computes the symmetric
difference between the desired property set and the applied property set read
from the live configuration file (the empty set when the file does not exist,
see the second conjunct), and the unit's `should_restart` flag afterwards is
its old value or-ed with the non-emptiness of that difference: a non-empty
difference sets it, an empty difference leaves it unchanged. -/
theorem reconcile_drift_detection (env : ReconcileEnv) (st : ConnState)
    (h : (env.tlsEnabled && env.sansChanged) = false) :
    (reconcile env st).1.shouldRestart
      = (st.shouldRestart || decide (configDrift env st ≠ ∅)) ∧
    Workload.read none = ([] : List String) ∧
    configDrift env st
      = symmDiff env.desired.toFinset (Workload.read st.workerPropsFile).toFinset := by
  refine ⟨?_, rfl, rfl⟩
  rw [reconcile_shouldRestart_eq env st h, driftState_shouldRestart]

theorem reconcile_drift_detection_witness :
    (reconcile
        { pluginPathInitiated := true, fetch := FetchResult.ok, tlsEnabled := false,
          sansChanged := false, desired := ["a=1", "b=2"], ready := true }
        { shouldRestart := false, cert := "", workerPropsFile := some "a=1" }).1.shouldRestart
      = (false || decide (configDrift
          { pluginPathInitiated := true, fetch := FetchResult.ok, tlsEnabled := false,
            sansChanged := false, desired := ["a=1", "b=2"], ready := true }
          { shouldRestart := false, cert := "", workerPropsFile := some "a=1" } ≠ ∅)) ∧
    Workload.read none = ([] : List String) ∧
    configDrift
        { pluginPathInitiated := true, fetch := FetchResult.ok, tlsEnabled := false,
          sansChanged := false, desired := ["a=1", "b=2"], ready := true }
        { shouldRestart := false, cert := "", workerPropsFile := some "a=1" }
      = symmDiff (["a=1", "b=2"] : List String).toFinset
          (Workload.read (some "a=1")).toFinset :=
  reconcile_drift_detection
    { pluginPathInitiated := true, fetch := FetchResult.ok, tlsEnabled := false,
      sansChanged := false, desired := ["a=1", "b=2"], ready := true }
    { shouldRestart := false, cert := "", workerPropsFile := some "a=1" } rfl

/-- Claim C5: whenever `reconcile` emits the lock-acquire (restart) request,
its action trace is exactly the plugin/client phase followed by
`enable_auth`, then the TLS apply, then the config apply, then the
lock-acquire — all three apply sub-steps complete, in that order, before
the restart request, which is the final action. -/
theorem reconcile_apply_before_lock (env : ReconcileEnv) (st : ConnState)
    (h : CharmAction.acquireLock ∈ (reconcile env st).2) :
    (reconcile env st).2
      = pluginPhaseActions env
        ++ [CharmAction.enableAuth, CharmAction.tlsConfigure, CharmAction.configConfigure,
            CharmAction.acquireLock] ∧
    CharmAction.acquireLock ∉ pluginPhaseActions env := by
  have hal := (pluginPhaseActions_mem env).2.2.2.2.2.2.2.2.2.2
  obtain ⟨tail, heq, hcases⟩ := reconcile_actions_shape env st
  rw [heq] at h ⊢
  rcases hcases with h4 | h4 | h4 | h4 <;> subst h4
  · exact absurd (by simpa using h) hal
  · rcases List.mem_append.mp h with h5 | h5
    · exact absurd h5 hal
    · simp at h5
  · rcases List.mem_append.mp h with h5 | h5
    · exact absurd h5 hal
    · simp at h5
  · exact ⟨rfl, hal⟩

theorem reconcile_apply_before_lock_witness :
    (reconcile
        { pluginPathInitiated := true, fetch := FetchResult.ok, tlsEnabled := false,
          sansChanged := false, desired := ["a=1", "b=2"], ready := true }
        { shouldRestart := false, cert := "", workerPropsFile := some "a=1" }).2
      = pluginPhaseActions
          { pluginPathInitiated := true, fetch := FetchResult.ok, tlsEnabled := false,
            sansChanged := false, desired := ["a=1", "b=2"], ready := true }
        ++ [CharmAction.enableAuth, CharmAction.tlsConfigure, CharmAction.configConfigure,
            CharmAction.acquireLock] ∧
    CharmAction.acquireLock ∉ pluginPhaseActions
        { pluginPathInitiated := true, fetch := FetchResult.ok, tlsEnabled := false,
          sansChanged := false, desired := ["a=1", "b=2"], ready := true } :=
  reconcile_apply_before_lock
    { pluginPathInitiated := true, fetch := FetchResult.ok, tlsEnabled := false,
      sansChanged := false, desired := ["a=1", "b=2"], ready := true }
    { shouldRestart := false, cert := "", workerPropsFile := some "a=1" } (by decide)

/-- Claim C7: `pre_upgrade_check` raises `ClusterNotReadyError` with cause
"Cluster is not healthy" and issues no rolling-update partition patch when
the health check fails; when the health check succeeds and the upgrade
stack is idle it sets the rolling-update partition to the number of units
minus one. -/
theorem pre_upgrade_check_spec (healthOk idle : Bool) (numUnits : Nat) :
    (healthOk = false → ConnectUpgrade.pre_upgrade_check healthOk idle numUnits
        = PreCheckResult.clusterNotReady "Pre-upgrade check failed and cannot safely upgrade"
            "Cluster is not healthy") ∧
    (healthOk = true → idle = true →
        ConnectUpgrade.pre_upgrade_check healthOk idle numUnits
          = PreCheckResult.ok (some (numUnits - 1))) := by
  constructor
  · intro h; simp [ConnectUpgrade.pre_upgrade_check, h]
  · intro h h2; simp [ConnectUpgrade.pre_upgrade_check, h, h2]

theorem pre_upgrade_check_spec_witness :
    ConnectUpgrade.pre_upgrade_check false true 3
      = PreCheckResult.clusterNotReady "Pre-upgrade check failed and cannot safely upgrade"
          "Cluster is not healthy" ∧
    ConnectUpgrade.pre_upgrade_check true true 3 = PreCheckResult.ok (some 2) :=
  ⟨(pre_upgrade_check_spec false true 3).1 rfl, (pre_upgrade_check_spec true true 3).2 rfl rfl⟩

/-- Claim C8: a plugin-resource fetch/load failure (undeclared resource,
missing or non-downloadable resource) is caught and logged, never
propagated: on every invocation `reconcile` still performs the
plugin-update and client-data-propagation steps, the plugin is loaded
exactly when the fetch succeeded, and each caught failure leaves the
corresponding log entry. -/
theorem reconcile_plugin_failure_contained (env : ReconcileEnv) (st : ConnState) :
    CharmAction.updatePlugins ∈ (reconcile env st).2 ∧
    CharmAction.updateClientsData ∈ (reconcile env st).2 ∧
    (CharmAction.loadPlugin ∈ (reconcile env st).2 ↔ env.fetch = FetchResult.ok) ∧
    (CharmAction.logResourceError ∈ (reconcile env st).2
      ↔ env.fetch = FetchResult.runtimeError) ∧
    (CharmAction.logResourceDebug ∈ (reconcile env st).2
      ↔ env.fetch = FetchResult.nameError ∨ env.fetch = FetchResult.modelError) := by
  obtain ⟨hup, hcd, hlp, hle, hld, -, -, -, -, -, -⟩ := pluginPhaseActions_mem env
  obtain ⟨tail, heq, hcases⟩ := reconcile_actions_shape env st
  rw [heq]
  have hnt : CharmAction.loadPlugin ∉ tail ∧ CharmAction.logResourceError ∉ tail ∧
      CharmAction.logResourceDebug ∉ tail := by
    rcases hcases with h4 | h4 | h4 | h4 <;> subst h4 <;> refine ⟨?_, ?_, ?_⟩ <;> simp
  refine ⟨List.mem_append_left _ hup, List.mem_append_left _ hcd, ?_, ?_, ?_⟩
  · rw [← hlp]
    constructor
    · intro h
      rcases List.mem_append.mp h with h5 | h5
      · exact h5
      · exact absurd h5 hnt.1
    · exact List.mem_append_left _
  · rw [← hle]
    constructor
    · intro h
      rcases List.mem_append.mp h with h5 | h5
      · exact h5
      · exact absurd h5 hnt.2.1
    · exact List.mem_append_left _
  · rw [← hld]
    constructor
    · intro h
      rcases List.mem_append.mp h with h5 | h5
      · exact h5
      · exact absurd h5 hnt.2.2
    · exact List.mem_append_left _

lemma configDrift_congr (env : ReconcileEnv) {st st2 : ConnState}
    (h : st.workerPropsFile = st2.workerPropsFile) : configDrift env st = configDrift env st2 := by
  unfold configDrift; rw [h]

lemma ConnState_set_flag_id {st : ConnState} (h : st.shouldRestart = true) :
    ({ st with shouldRestart := true } : ConnState) = st := by
  obtain ⟨f, c, w⟩ := st; simp_all

lemma ConnState_set_file_id {st : ConnState} {w : Option String}
    (h : st.workerPropsFile = w) : ({ st with workerPropsFile := w } : ConnState) = st := by
  obtain ⟨f, c, wp⟩ := st; simp_all

lemma driftState_flag_true_id (env : ReconcileEnv) {st : ConnState}
    (h : st.shouldRestart = true) : driftState env st = st := by
  unfold driftState; split
  · rfl
  · exact ConnState_set_flag_id h

lemma driftState_flag_false {env : ReconcileEnv} {st : ConnState}
    (h : (driftState env st).shouldRestart = false) :
    configDrift env st = ∅ ∧ driftState env st = st := by
  rw [driftState_shouldRestart] at h
  simp only [Bool.or_eq_false_iff, decide_eq_false_iff_not, not_not] at h
  exact ⟨h.2, driftState_empty h.2⟩

lemma reconcile_state_idempotent (env : ReconcileEnv) (st : ConnState) :
    (reconcile env (reconcile env st).1).1 = (reconcile env st).1 := by
  by_cases hb : (env.tlsEnabled && env.sansChanged) = true
  · rw [reconcile_san_eq env st hb]
    simp only
    rw [reconcile_san_eq env _ hb]
  · have hb' := bool_eq_false_of_ne_true hb
    by_cases hr : (driftState env st).shouldRestart = true
    · by_cases hready : env.ready = true
      · rw [reconcile_apply_eq env st hb' hr hready]
        simp only
        set st2 : ConnState :=
          { driftState env st with workerPropsFile := ConfigManager.configure env.desired }
          with hst2
        have hflag2 : st2.shouldRestart = true := hr
        have hdrift2 : driftState env st2 = st2 := driftState_flag_true_id env hflag2
        have hr2 : (driftState env st2).shouldRestart = true := by rw [hdrift2]; exact hflag2
        rw [reconcile_apply_eq env st2 hb' hr2 hready]
        simp only
        rw [hdrift2]
      · have hready' := bool_eq_false_of_ne_true hready
        rw [reconcile_wait_eq env st hb' hr hready']
        simp only
        have hdrift2 : driftState env (driftState env st) = driftState env st :=
          driftState_flag_true_id env hr
        have hr2 : (driftState env (driftState env st)).shouldRestart = true := by
          rw [hdrift2]; exact hr
        rw [reconcile_wait_eq env (driftState env st) hb' hr2 hready']
        simp only
        exact hdrift2
    · have hr' := bool_eq_false_of_ne_true hr
      obtain ⟨-, hds⟩ := driftState_flag_false hr'
      rw [reconcile_noop_eq env st hb' hr']
      simp only
      rw [hds]
      rw [reconcile_noop_eq env st hb' hr']
      simp only
      exact hds

/-- Claim C3 counterexample: with a configuration drift present, the cluster
ready and no SAN change, calling `reconcile` twice in succession with no
intervening external change (in particular, before the coordinated restart
has run and cleared `should_restart`) emits the lock-acquire restart
request in BOTH invocations, because `reconcile` never clears
`should_restart` itself. -/
theorem reconcile_second_lock_request_counterexample :
    CharmAction.acquireLock ∈
      (reconcile
        { pluginPathInitiated := true, fetch := FetchResult.ok, tlsEnabled := false,
          sansChanged := false, desired := ["a=1", "b=2"], ready := true }
        { shouldRestart := false, cert := "", workerPropsFile := some "a=1" }).2 ∧
    CharmAction.acquireLock ∈
      (reconcile
        { pluginPathInitiated := true, fetch := FetchResult.ok, tlsEnabled := false,
          sansChanged := false, desired := ["a=1", "b=2"], ready := true }
        (reconcile
          { pluginPathInitiated := true, fetch := FetchResult.ok, tlsEnabled := false,
            sansChanged := false, desired := ["a=1", "b=2"], ready := true }
          { shouldRestart := false, cert := "", workerPropsFile := some "a=1" }).1).2 := by
  constructor <;> decide

/-- Claim C3 (amended): a second `reconcile` with no intervening external
change performs no additional state mutation (the resulting state is a
fixed point), and once the pending restart has completed — `should_restart`
cleared and the applied configuration matching the desired one — a second
call is a pure no-op that emits no lock-acquire request; however a second
call made while `should_restart` is still pending does re-emit the same
lock-acquire request (see the counterexample). -/
theorem reconcile_idempotent_amended (env : ReconcileEnv) (st : ConnState) :
    (reconcile env (reconcile env st).1).1 = (reconcile env st).1 ∧
    ((env.tlsEnabled && env.sansChanged) = false → st.shouldRestart = false →
      configDrift env st = ∅ →
      reconcile env st = (st, pluginPhaseActions env) ∧
      CharmAction.acquireLock ∉ (reconcile env st).2) := by
  refine ⟨reconcile_state_idempotent env st, ?_⟩
  intro hb hflag hdrift
  have hds : driftState env st = st := driftState_empty hdrift
  have hr : (driftState env st).shouldRestart = false := by rw [hds]; exact hflag
  have heq := reconcile_noop_eq env st hb hr
  rw [hds] at heq
  refine ⟨heq, ?_⟩
  rw [heq]
  exact (pluginPhaseActions_mem env).2.2.2.2.2.2.2.2.2.2

theorem reconcile_idempotent_amended_witness :
    (reconcile
        { pluginPathInitiated := true, fetch := FetchResult.ok, tlsEnabled := false,
          sansChanged := false, desired := ["a=1"], ready := true }
        (reconcile
          { pluginPathInitiated := true, fetch := FetchResult.ok, tlsEnabled := false,
            sansChanged := false, desired := ["a=1"], ready := true }
          { shouldRestart := false, cert := "", workerPropsFile := some "a=1" }).1).1
      = (reconcile
          { pluginPathInitiated := true, fetch := FetchResult.ok, tlsEnabled := false,
            sansChanged := false, desired := ["a=1"], ready := true }
          { shouldRestart := false, cert := "", workerPropsFile := some "a=1" }).1 ∧
    reconcile
        { pluginPathInitiated := true, fetch := FetchResult.ok, tlsEnabled := false,
          sansChanged := false, desired := ["a=1"], ready := true }
        { shouldRestart := false, cert := "", workerPropsFile := some "a=1" }
      = ({ shouldRestart := false, cert := "", workerPropsFile := some "a=1" },
         pluginPhaseActions
           { pluginPathInitiated := true, fetch := FetchResult.ok, tlsEnabled := false,
             sansChanged := false, desired := ["a=1"], ready := true }) := by
  have h := reconcile_idempotent_amended
    { pluginPathInitiated := true, fetch := FetchResult.ok, tlsEnabled := false,
      sansChanged := false, desired := ["a=1"], ready := true }
    { shouldRestart := false, cert := "", workerPropsFile := some "a=1" }
  exact ⟨h.1, (h.2 rfl rfl (by decide)).1⟩

/-- Claim C4: readiness preconditions. In the Engine: with no SAN
short-circuit, if `should_restart` is false after drift detection,
`reconcile` is a no-op past that point; if it is true but the cluster is
not ready, `reconcile` surfaces a status and returns without clearing the
flag and without applying auth/TLS/config or requesting the restart lock.
In the Coordinator callback: when the cluster is not ready or no restart
is pending, the callback declines to act. -/
theorem readiness_preconditions (env : ReconcileEnv) (st stc : ConnState) (ready : Bool)
    (health : Nat → Bool) (h : (env.tlsEnabled && env.sansChanged) = false) :
    ((driftState env st).shouldRestart = false →
        reconcile env st = (st, pluginPhaseActions env)) ∧
    ((driftState env st).shouldRestart = true → env.ready = false →
        (reconcile env st).1.shouldRestart = true ∧
        (reconcile env st).1.workerPropsFile = st.workerPropsFile ∧
        (reconcile env st).2 = pluginPhaseActions env ++ [CharmAction.setStatus] ∧
        CharmAction.acquireLock ∉ (reconcile env st).2 ∧
        CharmAction.enableAuth ∉ (reconcile env st).2 ∧
        CharmAction.tlsConfigure ∉ (reconcile env st).2 ∧
        CharmAction.configConfigure ∉ (reconcile env st).2) ∧
    (ready = false ∨ stc.shouldRestart = false →
        restartCallback ready health stc = (stc, [])) := by
  obtain ⟨-, -, -, -, -, -, hea, htc, hcc, -, hal⟩ := pluginPhaseActions_mem env
  refine ⟨?_, ?_, ?_⟩
  · intro h2
    obtain ⟨-, hds⟩ := driftState_flag_false h2
    have heq := reconcile_noop_eq env st h h2
    rw [hds] at heq
    exact heq
  · intro h2 h3
    rw [reconcile_wait_eq env st h h2 h3]
    refine ⟨h2, driftState_workerPropsFile env st, rfl, ?_, ?_, ?_, ?_⟩ <;>
      simp only [List.mem_append] <;> rintro (h5 | h5)
    · exact hal h5
    · simp at h5
    · exact hea h5
    · simp at h5
    · exact htc h5
    · simp at h5
    · exact hcc h5
    · simp at h5
  · rintro (h3 | h3) <;> simp [restartCallback, h3]

theorem readiness_preconditions_witness :
    reconcile
        { pluginPathInitiated := true, fetch := FetchResult.ok, tlsEnabled := false,
          sansChanged := false, desired := ["a=1"], ready := true }
        { shouldRestart := false, cert := "", workerPropsFile := some "a=1" }
      = ({ shouldRestart := false, cert := "", workerPropsFile := some "a=1" },
         pluginPhaseActions
           { pluginPathInitiated := true, fetch := FetchResult.ok, tlsEnabled := false,
             sansChanged := false, desired := ["a=1"], ready := true }) ∧
    restartCallback false (fun _ => true)
        { shouldRestart := true, cert := "", workerPropsFile := none }
      = ({ shouldRestart := true, cert := "", workerPropsFile := none }, []) := by
  have h := readiness_preconditions
    { pluginPathInitiated := true, fetch := FetchResult.ok, tlsEnabled := false,
      sansChanged := false, desired := ["a=1"], ready := true }
    { shouldRestart := false, cert := "", workerPropsFile := some "a=1" }
    { shouldRestart := true, cert := "", workerPropsFile := none }
    false (fun _ => true) rfl
  exact ⟨h.1 (by decide), h.2.2 (Or.inl rfl)⟩

lemma healthPoll_count_le (health : Nat → Bool) : ∀ n i, (healthPoll health n i).2 ≤ n := by
  intro n
  induction n with
  | zero => intro i; simp [healthPoll]
  | succ n ih =>
      intro i
      unfold healthPoll
      split
      · simp
      · simp only
        have := ih (i + 1)
        omega

lemma healthPoll_all_false (health : Nat → Bool) :
    ∀ n i, (∀ j, j < n → health (i + j) = false) → healthPoll health n i = (false, n) := by
  intro n
  induction n with
  | zero => intro i _; simp [healthPoll]
  | succ n ih =>
      intro i hall
      have h0 : health i = false := by simpa using hall 0 (by omega)
      unfold healthPoll
      rw [if_neg (by simp [h0])]
      have hrest : ∀ j, j < n → health (i + 1 + j) = false := by
        intro j hj
        have := hall (j + 1) (by omega)
        rwa [show i + (j + 1) = i + 1 + j by omega] at this
      simp only
      rw [ih (i + 1) hrest]

lemma healthPoll_first_success (health : Nat → Bool) :
    ∀ j n i, j < n → health (i + j) = true → (∀ k, k < j → health (i + k) = false) →
      healthPoll health n i = (true, j + 1) := by
  intro j
  induction j with
  | zero =>
      intro n i hn htrue _
      obtain ⟨m, rfl⟩ : ∃ m, n = m + 1 := ⟨n - 1, by omega⟩
      have h0 : health i = true := by simpa using htrue
      unfold healthPoll
      rw [if_pos h0]
  | succ j ih =>
      intro n i hn htrue hprev
      obtain ⟨m, rfl⟩ : ∃ m, n = m + 1 := ⟨n - 1, by omega⟩
      have h0 : health i = false := by simpa using hprev 0 (by omega)
      unfold healthPoll
      rw [if_neg (by simp [h0])]
      have hres : healthPoll health m (i + 1) = (true, j + 1) := by
        refine ih m (i + 1) (by omega) ?_ ?_
        · rwa [show i + 1 + j = i + (j + 1) by omega]
        · intro k hk
          have := hprev (k + 1) (by omega)
          rwa [show i + (k + 1) = i + 1 + k by omega] at this
      simp only
      rw [hres]

lemma restartCallback_run (st : ConnState) (health : Nat → Bool)
    (h1 : st.shouldRestart = true) :
    restartCallback true health st
      = (if (healthPoll health 4 0).1 then { st with shouldRestart := false } else st,
         CharmAction.restartWorker
           :: List.replicate (healthPoll health 4 0).2 CharmAction.healthCheckPoll) := by
  simp [restartCallback, h1]

lemma count_healthCheckPoll (n : Nat) :
    (CharmAction.restartWorker
        :: List.replicate n CharmAction.healthCheckPoll).count CharmAction.healthCheckPoll
      = n := by
  simp [List.count_cons, List.count_replicate]

/-- Claim C6: with a restart pending and the cluster ready, the restart
callback restarts the worker and polls the health check at most 4 times;
when attempt `j < 4` is the first success it stops after `j + 1` polls
with `should_restart` cleared, and when all 4 attempts fail it terminates
after exactly 4 polls with `should_restart` still set. -/
theorem restart_callback_bounded_health_retry (st : ConnState) (health : Nat → Bool)
    (h1 : st.shouldRestart = true) :
    (restartCallback true health st).2.count CharmAction.healthCheckPoll ≤ 4 ∧
    (restartCallback true health st).2.head? = some CharmAction.restartWorker ∧
    (∀ j, j < 4 → health j = true → (∀ k, k < j → health k = false) →
        (restartCallback true health st).1.shouldRestart = false ∧
        (restartCallback true health st).2.count CharmAction.healthCheckPoll = j + 1) ∧
    ((∀ j, j < 4 → health j = false) →
        (restartCallback true health st).1.shouldRestart = true ∧
        (restartCallback true health st).2.count CharmAction.healthCheckPoll = 4) := by
  rw [restartCallback_run st health h1]
  refine ⟨?_, rfl, ?_, ?_⟩
  · rw [count_healthCheckPoll]
    exact healthPoll_count_le health 4 0
  · intro j hj htrue hprev
    have hpoll : healthPoll health 4 0 = (true, j + 1) :=
      healthPoll_first_success health j 4 0 hj (by simpa using htrue)
        (fun k hk => by simpa using hprev k hk)
    rw [hpoll]
    exact ⟨rfl, count_healthCheckPoll _⟩
  · intro hall
    have hpoll : healthPoll health 4 0 = (false, 4) :=
      healthPoll_all_false health 4 0 (fun j hj => by simpa using hall j hj)
    rw [hpoll]
    exact ⟨h1, count_healthCheckPoll _⟩

theorem restart_callback_bounded_health_retry_witness :
    (restartCallback true (fun _ => false)
        { shouldRestart := true, cert := "", workerPropsFile := none }).1.shouldRestart
      = true ∧
    (restartCallback true (fun _ => false)
        { shouldRestart := true, cert := "", workerPropsFile := none }).2.count
        CharmAction.healthCheckPoll = 4 ∧
    (restartCallback true (fun i => decide (i = 2))
        { shouldRestart := true, cert := "", workerPropsFile := none }).1.shouldRestart
      = false ∧
    (restartCallback true (fun i => decide (i = 2))
        { shouldRestart := true, cert := "", workerPropsFile := none }).2.count
        CharmAction.healthCheckPoll = 3 := by
  have hA := (restart_callback_bounded_health_retry
    { shouldRestart := true, cert := "", workerPropsFile := none }
    (fun _ => false) rfl).2.2.2 (fun j _ => rfl)
  have hB := (restart_callback_bounded_health_retry
    { shouldRestart := true, cert := "", workerPropsFile := none }
    (fun i => decide (i = 2)) rfl).2.2.1 2 (by omega) (by decide)
    (fun k hk => by interval_cases k <;> decide)
  exact ⟨hA.1, hA.2, hB.1, hB.2⟩

lemma retryFalseLoop_iff (body : Nat → Bool) :
    ∀ n i, retryFalseLoop body n i = true ↔ ∃ j, j < n ∧ body (i + j) = true := by
  intro n
  induction n with
  | zero => intro i; simp [retryFalseLoop]
  | succ n ih =>
      intro i
      unfold retryFalseLoop
      by_cases hb : body i = true
      · rw [if_pos hb]
        simp only [true_iff]
        exact ⟨0, by omega, by simpa using hb⟩
      · rw [if_neg hb]
        rw [ih (i + 1)]
        constructor
        · rintro ⟨j, hj, hbody⟩
          exact ⟨j + 1, by omega, by rwa [show i + (j + 1) = i + 1 + j by omega]⟩
        · rintro ⟨j, hj, hbody⟩
          cases j with
          | zero => exact absurd (by simpa using hbody) hb
          | succ j =>
              exact ⟨j, by omega, by rwa [show i + 1 + j = i + (j + 1) by omega]⟩

/-- Claim C9: `Workload.active` always returns a boolean and never propagates
a retry error: the attempt is retried while it returns false, up to the
5-attempt bound with a fixed 1-second wait, the overall result is true
exactly when some attempt within the bound returns true (so exhausting all
attempts yields false rather than an exception), and a single attempt
returns false when the workload is not installed or the service is
absent. -/
theorem workload_active_retry (body : Nat → Bool) :
    (Workload.active body = true
      ↔ ∃ j, j < active_retry_max_attempts ∧ body j = true) ∧
    active_retry_max_attempts = 5 ∧
    active_retry_wait_seconds = 1 ∧
    (∀ sr r, Workload.activeBody false sr r = false) ∧
    (∀ inst r, Workload.activeBody inst false r = false) := by
  refine ⟨?_, rfl, rfl, ?_, ?_⟩
  · unfold Workload.active
    rw [retryFalseLoop_iff]
    simp
  · intro sr r; rfl
  · intro inst r; cases inst <;> rfl

theorem workload_active_retry_witness :
    Workload.active (fun i => decide (i = 3)) = true ∧
    Workload.active (fun _ => false) = false := by
  constructor
  · exact (workload_active_retry (fun i => decide (i = 3))).1.mpr ⟨3, by decide, by decide⟩
  · have h := (workload_active_retry (fun _ => false)).1
    cases hb : Workload.active (fun _ : Nat => false)
    · rfl
    · obtain ⟨j, -, hj⟩ := h.mp hb
      exact absurd hj (by simp)

lemma dictLookup_cons (p : String × String) (d : List (String × String)) (k : String) :
    dictLookup (p :: d) k = if p.1 == k then some p.2 else dictLookup d k := by
  unfold dictLookup
  cases hpk : (p.1 == k) <;> simp [List.find?_cons, hpk]

lemma dictLookup_not_mem_keys {d : List (String × String)} {k : String}
    (h : ∀ p ∈ d, (p.1 == k) = false) : dictLookup d k = none := by
  induction d with
  | nil => rfl
  | cons p rest ih =>
      rw [dictLookup_cons]
      have h0 := h p (List.mem_cons_self p rest)
      simp only [h0, Bool.false_eq_true, if_false]
      exact ih (fun q hq => h q (List.mem_cons_of_mem p hq))

lemma dictLookup_map_replace {k v : String} :
    ∀ d : List (String × String), d.any (fun p => p.1 == k) = true →
      dictLookup (d.map (fun p => if p.1 == k then (k, v) else p)) k = some v := by
  intro d
  induction d with
  | nil => intro h; simp at h
  | cons p rest ih =>
      intro h
      rw [List.map_cons]
      cases hpk : (p.1 == k) with
      | true => simp [hpk, dictLookup_cons]
      | false =>
          simp only [hpk, Bool.false_eq_true, if_false]
          rw [dictLookup_cons]
          simp only [hpk, Bool.false_eq_true, if_false]
          apply ih
          simpa [List.any_cons, hpk] using h

lemma dictLookup_append_single {k v : String} :
    ∀ d : List (String × String), (∀ p ∈ d, (p.1 == k) = false) →
      dictLookup (d ++ [(k, v)]) k = some v := by
  intro d
  induction d with
  | nil => simp [dictLookup_cons]
  | cons p rest ih =>
      intro h
      rw [List.cons_append, dictLookup_cons]
      have h0 := h p (List.mem_cons_self p rest)
      simp only [h0, Bool.false_eq_true, if_false]
      exact ih (fun q hq => h q (List.mem_cons_of_mem p hq))

lemma dictInsert_lookup_self (d : List (String × String)) (k v : String) :
    dictLookup (dictInsert d k v) k = some v := by
  unfold dictInsert
  split
  · exact dictLookup_map_replace d (by assumption)
  · rename_i hany
    apply dictLookup_append_single
    intro p hp
    exact Bool.eq_false_iff.mpr (fun hc => hany (List.any_eq_true.mpr ⟨p, hp, hc⟩))

lemma dictLookup_map_replace_ne {k v k' : String} (hk : (k == k') = false) :
    ∀ d : List (String × String),
      dictLookup (d.map (fun p => if p.1 == k then (k, v) else p)) k'
        = dictLookup d k' := by
  intro d
  induction d with
  | nil => rfl
  | cons p rest ih =>
      rw [List.map_cons]
      cases hpk : (p.1 == k) with
      | true =>
          have hpe : p.1 = k := by simpa using hpk
          simp only [hpk, if_true]
          rw [dictLookup_cons, dictLookup_cons, hpe]
          simp only [hk, Bool.false_eq_true, if_false]
          exact ih
      | false =>
          simp only [hpk, Bool.false_eq_true, if_false]
          rw [dictLookup_cons, dictLookup_cons]
          cases hpk' : (p.1 == k') with
          | true => simp only [hpk', if_true]
          | false =>
              simp only [hpk', Bool.false_eq_true, if_false]
              exact ih

lemma dictLookup_append_single_ne {k v k' : String} (hk : (k == k') = false) :
    ∀ d : List (String × String),
      dictLookup (d ++ [(k, v)]) k' = dictLookup d k' := by
  intro d
  induction d with
  | nil => simp [dictLookup_cons, hk]
  | cons p rest ih =>
      rw [List.cons_append, dictLookup_cons, dictLookup_cons]
      cases hpk : (p.1 == k') <;> simp [ih]

lemma dictInsert_lookup_ne (d : List (String × String)) (k v k' : String) (h : k ≠ k') :
    dictLookup (dictInsert d k v) k' = dictLookup d k' := by
  have hk : (k == k') = false := by simpa using h
  unfold dictInsert
  split
  · exact dictLookup_map_replace_ne hk d
  · exact dictLookup_append_single_ne hk d

lemma map_fst_replace (k v : String) :
    ∀ d : List (String × String),
      (d.map (fun p => if p.1 == k then (k, v) else p)).map Prod.fst = d.map Prod.fst := by
  intro d
  induction d with
  | nil => rfl
  | cons p rest ih =>
      rw [List.map_cons, List.map_cons, List.map_cons]
      cases hpk : (p.1 == k) with
      | true =>
          have hpe : p.1 = k := by simpa using hpk
          simp only [hpk, if_true]
          rw [ih, hpe]
      | false =>
          simp only [hpk, Bool.false_eq_true, if_false]
          rw [ih]

lemma dictInsert_keys_nodup {d : List (String × String)} {k v : String}
    (h : (d.map Prod.fst).Nodup) : ((dictInsert d k v).map Prod.fst).Nodup := by
  unfold dictInsert
  split
  · rw [map_fst_replace]; exact h
  · rename_i hany
    rw [List.map_append]
    refine List.Nodup.append h (List.nodup_singleton k) ?_
    intro x hx hx2
    simp only [List.map_cons, List.map_nil, List.mem_singleton] at hx2
    subst hx2
    obtain ⟨p, hp, hpk⟩ := List.mem_map.mp hx
    exact hany (List.any_eq_true.mpr ⟨p, hp, by simp [hpk]⟩)

lemma dictInsert_mem (d : List (String × String)) (k v : String) :
    ∀ q ∈ dictInsert d k v, q.1 = k ∨ q ∈ d := by
  unfold dictInsert
  split
  · intro q hq
    obtain ⟨p, hp, hpq⟩ := List.mem_map.mp hq
    cases hpk : (p.1 == k) with
    | true => rw [hpk] at hpq; simp at hpq; left; rw [← hpq]
    | false => rw [hpk] at hpq; simp at hpq; right; rw [← hpq]; exact hp
  · intro q hq
    rcases List.mem_append.mp hq with h | h
    · exact Or.inr h
    · simp only [List.mem_singleton] at h
      subst h
      exact Or.inl rfl

lemma mapEnvStep_mem (d : List (String × String)) (var : String) :
    ∀ q ∈ mapEnvStep d var, q ∈ d ∨ (q.1 = envKey var ∧ (envKey var == "") = false) := by
  unfold mapEnvStep
  split
  · exact fun q hq => Or.inl hq
  · rename_i hv
    intro q hq
    rcases dictInsert_mem d (envKey var) (envValue var) q hq with h | h
    · exact Or.inr ⟨h, Bool.eq_false_iff.mpr hv⟩
    · exact Or.inl h

lemma foldl_mapEnvStep_keys_ne_empty :
    ∀ (l : List String) (a : List (String × String)),
      (∀ q ∈ a, (q.1 == "") = false) →
      ∀ q ∈ l.foldl mapEnvStep a, (q.1 == "") = false := by
  intro l
  induction l with
  | nil => intro a ha; simpa using ha
  | cons var rest ih =>
      intro a ha
      rw [List.foldl_cons]
      apply ih
      intro q hq
      rcases mapEnvStep_mem a var q hq with h | h
      · exact ha q h
      · rw [show (q.1 == "") = (envKey var == "") by rw [h.1]]
        exact h.2

lemma foldl_mapEnvStep_keys_nodup :
    ∀ (l : List String) (a : List (String × String)),
      (a.map Prod.fst).Nodup → ((l.foldl mapEnvStep a).map Prod.fst).Nodup := by
  intro l
  induction l with
  | nil => intro a ha; simpa using ha
  | cons var rest ih =>
      intro a ha
      rw [List.foldl_cons]
      apply ih
      unfold mapEnvStep
      split
      · exact ha
      · exact dictInsert_keys_nodup ha

lemma map_env_keys_nodup (env : List String) :
    ((Workload.map_env env).map Prod.fst).Nodup := by
  unfold Workload.map_env
  exact foldl_mapEnvStep_keys_nodup env [] (by simp)

lemma dictMerge_lookup (k : String) :
    ∀ (b a : List (String × String)), (b.map Prod.fst).Nodup →
      dictLookup (dictMerge a b) k
        = match dictLookup b k with
          | some v => some v
          | none => dictLookup a k := by
  intro b
  induction b with
  | nil => intro a _; rfl
  | cons p rest ih =>
      intro a hnodup
      rw [List.map_cons, List.nodup_cons] at hnodup
      obtain ⟨hkey, hrest⟩ := hnodup
      rw [show dictMerge a (p :: rest) = dictMerge (dictInsert a p.1 p.2) rest from rfl]
      rw [ih (dictInsert a p.1 p.2) hrest]
      rw [dictLookup_cons]
      cases hpk : (p.1 == k) with
      | true =>
          have hpe : p.1 = k := by simpa using hpk
          have hnone : dictLookup rest k = none := by
            apply dictLookup_not_mem_keys
            intro q hq
            refine Bool.eq_false_iff.mpr fun hc => ?_
            have hqk : q.1 = k := by simpa using hc
            exact hkey (List.mem_map.mpr ⟨q, hq, by rw [hqk, hpe]⟩)
          rw [hnone, hpe]
          simp [dictInsert_lookup_self]
      | false =>
          have hne : p.1 ≠ k := by simpa using hpk
          rw [dictInsert_lookup_ne a p.1 p.2 k hne]
          simp

lemma map_env_keys_ne_empty (env : List String) :
    ∀ q ∈ Workload.map_env env, (q.1 == "") = false := by
  unfold Workload.map_env
  exact foldl_mapEnvStep_keys_ne_empty env [] (by simp)

/-- Claim C10: `set_environment` merges the parsed current environment file
with the parsed new entries: a key bound in the current file and not bound
by the new entries keeps its old value, a key bound by the new entries
gets the new value, `map_env` never produces a binding for the empty key
(such entries are dropped) while empty values are kept, and within one
entry list the last entry with a given key wins. -/
theorem set_environment_spec (envFile : Option String) (vars : List String) (k : String) :
    (dictLookup (Workload.map_env vars) k = none →
        dictLookup (Workload.set_environment envFile vars) k
          = dictLookup (Workload.map_env (Workload.read envFile)) k) ∧
    (∀ v, dictLookup (Workload.map_env vars) k = some v →
        dictLookup (Workload.set_environment envFile vars) k = some v) ∧
    dictLookup (Workload.map_env vars) "" = none ∧
    (∀ (previous : List String) (var : String), envKey var ≠ "" →
        dictLookup (Workload.map_env (previous ++ [var])) (envKey var)
          = some (envValue var)) ∧
    Workload.map_env ["=x", "A="] = [("A", "")] := by
  have hmerge := dictMerge_lookup k (Workload.map_env vars)
    (Workload.map_env (Workload.read envFile)) (map_env_keys_nodup vars)
  refine ⟨?_, ?_, ?_, ?_, by decide⟩
  · intro hnone
    unfold Workload.set_environment
    rw [hmerge, hnone]
  · intro v hsome
    unfold Workload.set_environment
    rw [hmerge, hsome]
  · exact dictLookup_not_mem_keys (map_env_keys_ne_empty vars)
  · intro previous var hvar
    unfold Workload.map_env
    rw [List.foldl_append, List.foldl_cons, List.foldl_nil]
    unfold mapEnvStep
    rw [if_neg (by simpa using hvar)]
    exact dictInsert_lookup_self _ _ _

theorem set_environment_spec_witness :
    dictLookup (Workload.set_environment (some "A=1\nB=2") ["B=3"]) "B" = some "3" ∧
    dictLookup (Workload.set_environment (some "A=1\nB=2") ["B=3"]) "A" = some "1" ∧
    dictLookup (Workload.map_env ["B=3"]) "" = none ∧
    dictLookup (Workload.map_env (["A=5"] ++ ["A=7"])) (envKey "A=7") = some (envValue "A=7") ∧
    Workload.map_env ["=x", "A="] = [("A", "")] := by
  have hB := set_environment_spec (some "A=1\nB=2") ["B=3"] "B"
  have hA := set_environment_spec (some "A=1\nB=2") ["B=3"] "A"
  refine ⟨hB.2.1 "3" (by decide), ?_, hB.2.2.1, ?_, hB.2.2.2.2⟩
  · have := hA.1 (by decide)
    rw [this]
    decide
  · exact hA.2.2.2.1 ["A=5"] "A=7" (by decide)
